import Mathlib

/-!
Verification of the scoring core of the IPL Captaincy Analysis app
(`src/captain.py`).

The numeric model uses exact rationals (`ℚ`) for the values pandas holds
as doubles.  Two views of the engine are embedded:

* a row-wise view (`Record`, `scoreRow`, `calculate_captain_score`)
  mirroring the element-wise pandas column arithmetic of
  `calculate_captain_score` on a well-formed frame, and

* a column-wise frame view (`Frame`, `calculate_captain_score_frame`)
  mirroring the actual pandas object: named columns, in-place column
  assignment (`df['X'] = ...` mutates the argument), `KeyError` on a
  missing column, and the `try/except` wrapper that reports the error and
  returns an empty frame.

Sorting: `df.sort_values(by=..., ascending=False)` in pandas
(`pandas.core.sorting.nargsort`) first reverses the key values and the
row indices (`non_nans[::-1]`, `non_nan_idx[::-1]`), then takes a stable
ascending argsort of the reversed values, and finally reverses the
resulting indexer.  The pre- and post-reversal cancel on equal keys, so
a descending sort keeps tied rows in their original input order
(pandas' stable-descending-sort regression test pins this behaviour).
For batches below numpy's small-sort threshold the underlying quicksort
is a plain insertion sort, which is stable, so the embedding models the
argsort as a stable ascending insertion sort, applied after reversing
the rows and followed by a reversal of the result.

`np.round` / `.round(2)` rounds half to even; `round2` models this
exactly on `ℚ`.
-/

/-- Weight configuration: the four slider coefficients passed as the
`weights` dict (`weights['win']`, `weights['close']`, `weights['player']`,
`weights['strategy']`). -/
structure Weights where
  win : ℚ
  close : ℚ
  player : ℚ
  strategy : ℚ
deriving DecidableEq, Repr

/-- One input row of the captain table: the `Captain` label column plus the
seven raw numeric columns read by `calculate_captain_score`. -/
structure Record where
  captain : String
  matches_played : ℚ
  matches_won : ℚ
  close_matches_played : ℚ
  close_matches_won : ℚ
  player_improvement_score : ℚ
  successful_strategies : ℚ
  total_strategies : ℚ
deriving DecidableEq, Repr

/-- A scored row: the input row together with the five derived columns the
engine assigns. -/
structure ScoredRow extends Record where
  win_percentage : ℚ
  close_match_success : ℚ
  strategy_success : ℚ
  player_impact : ℚ
  captaincy_score : ℚ
deriving DecidableEq, Repr

/-- Round a rational to the nearest integer, ties to even — the rounding
mode of `np.round` (idealised to exact decimal arithmetic). -/
def roundHalfToEven (x : ℚ) : ℤ :=
  if x - ⌊x⌋ < 1 / 2 then ⌊x⌋
  else if 1 / 2 < x - ⌊x⌋ then ⌊x⌋ + 1
  else if ⌊x⌋ % 2 = 0 then ⌊x⌋ else ⌊x⌋ + 1

/-- Round to two decimal places, as `.round(2)` does. -/
def round2 (x : ℚ) : ℚ := (roundHalfToEven (x * 100) : ℚ) / 100

/-- Element-wise `Series.clip(0, 100)`: values below 0 become 0, values
above 100 become 100. -/
def clipQ (x : ℚ) : ℚ := min 100 (max 0 x)

/-- Row-wise body of `calculate_captain_score`: the five column
assignments of lines 29–47 of `captain.py`, evaluated on one row.
`np.where(den > 0, num / den * 100, 0)` becomes the guarded ratio. -/
def scoreRow (w : Weights) (r : Record) : ScoredRow :=
  let win := if 0 < r.matches_played then r.matches_won / r.matches_played * 100 else 0
  let close := if 0 < r.close_matches_played then
    r.close_matches_won / r.close_matches_played * 100 else 0
  let strat := if 0 < r.total_strategies then
    r.successful_strategies / r.total_strategies * 100 else 0
  let impact := clipQ r.player_improvement_score
  { toRecord := r
    win_percentage := win
    close_match_success := close
    strategy_success := strat
    player_impact := impact
    captaincy_score :=
      round2 (win * w.win + close * w.close + impact * w.player + strat * w.strategy) }

/-- Ordering of scored rows by their `Captaincy_Score` key (the ascending
comparison used by the argsort). -/
def scoreLE (a b : ScoredRow) : Prop := a.captaincy_score ≤ b.captaincy_score

instance : DecidableRel scoreLE := fun a b =>
  inferInstanceAs (Decidable (a.captaincy_score ≤ b.captaincy_score))

instance : IsTotal ScoredRow scoreLE := ⟨fun _ _ => le_total _ _⟩

instance : IsTrans ScoredRow scoreLE := ⟨fun _ _ _ h h' => le_trans h h'⟩

/-- Row-wise `calculate_captain_score` on a well-formed frame: score every
row, then `sort_values(by='Captaincy_Score', ascending=False)`, i.e.
pandas `nargsort` for a descending sort: reverse the rows, take a stable
ascending sort by the score key, and reverse the result — descending
order with tied rows kept in their original input order. -/
def calculate_captain_score (df : List Record) (w : Weights) : List ScoredRow :=
  (List.insertionSort scoreLE (df.map (scoreRow w)).reverse).reverse

/-- Modelled from the spec (§4.1 step 1): `win_percentage` as the spec
formula states it. -/
def spec_win_percentage (r : Record) : ℚ :=
  if 0 < r.matches_played then r.matches_won / r.matches_played * 100 else 0

/-- Modelled from the spec (§4.1 step 1): `close_match_success` as the
spec formula states it. -/
def spec_close_match_success (r : Record) : ℚ :=
  if 0 < r.close_matches_played then r.close_matches_won / r.close_matches_played * 100 else 0

/-- Modelled from the spec (§4.1 step 1): `strategy_success` as the spec
formula states it. -/
def spec_strategy_success (r : Record) : ℚ :=
  if 0 < r.total_strategies then r.successful_strategies / r.total_strategies * 100 else 0

/-- Modelled from the spec (§4.1 step 1): `player_impact` is
`clamp(player_improvement_score, 0, 100)`. -/
def spec_player_impact (r : Record) : ℚ := max 0 (min 100 r.player_improvement_score)

/-- The example record of spec §8. -/
def exampleRecord : Record :=
  { captain := "Ruturaj Gaikwad"
    matches_played := 150
    matches_won := 90
    close_matches_played := 40
    close_matches_won := 25
    player_improvement_score := 80
    successful_strategies := 100
    total_strategies := 130 }

/-- The default weight configuration of the sidebar sliders. -/
def defaultWeights : Weights :=
  { win := 4 / 10, close := 2 / 10, player := 2 / 10, strategy := 2 / 10 }

/-- Claim C1: for every record and weight configuration the engine's
`captaincy_score` is the spec formula
`round(win_percentage*w.win + close_match_success*w.close +
player_impact*w.player + strategy_success*w.strategy, 2)`, and on the §8
example record with the default weights the derived fields are
`win_percentage = 60`, `close_match_success = 62.5`, `player_impact = 80`,
`strategy_success ≈ 76.92` (within 0.01) and `captaincy_score = 67.88`. -/
theorem C1_captaincy_score_formula :
    (∀ (r : Record) (w : Weights),
      (scoreRow w r).captaincy_score =
        round2 (spec_win_percentage r * w.win + spec_close_match_success r * w.close +
          spec_player_impact r * w.player + spec_strategy_success r * w.strategy)) ∧
    (scoreRow defaultWeights exampleRecord).win_percentage = 60 ∧
    (scoreRow defaultWeights exampleRecord).close_match_success = 125 / 2 ∧
    (scoreRow defaultWeights exampleRecord).player_impact = 80 ∧
    |(scoreRow defaultWeights exampleRecord).strategy_success - 7692 / 100| < 1 / 100 ∧
    (scoreRow defaultWeights exampleRecord).captaincy_score = 6788 / 100 := by
  refine ⟨fun r w => ?_, ?_, ?_, ?_, ?_, ?_⟩
  · simp only [scoreRow, spec_win_percentage, spec_close_match_success, spec_player_impact,
      spec_strategy_success, clipQ, min_max_distrib_left]
    norm_num
  all_goals norm_num [scoreRow, exampleRecord, defaultWeights, clipQ, round2, roundHalfToEven]
  rw [abs_lt]
  constructor <;> norm_num

/-- A record whose three denominator counters are all zero. -/
def zeroDenRecord : Record :=
  { captain := "Rookie"
    matches_played := 0
    matches_won := 0
    close_matches_played := 0
    close_matches_won := 0
    player_improvement_score := 50
    successful_strategies := 0
    total_strategies := 0 }

/-- Claim C3: a zero denominator yields a zero ratio field, never a
division error: `matches_played = 0` gives `win_percentage = 0`,
`close_matches_played = 0` gives `close_match_success = 0`, and
`total_strategies = 0` gives `strategy_success = 0` (the `np.where`
guards take the `0` branch). -/
theorem C3_zero_denominator_ratios (r : Record) (w : Weights) :
    (r.matches_played = 0 → (scoreRow w r).win_percentage = 0) ∧
    (r.close_matches_played = 0 → (scoreRow w r).close_match_success = 0) ∧
    (r.total_strategies = 0 → (scoreRow w r).strategy_success = 0) := by
  refine ⟨fun h => ?_, fun h => ?_, fun h => ?_⟩ <;> simp [scoreRow, h]

/-- Witness for C3 at a concrete record with all three denominators 0. -/
theorem C3_zero_denominator_ratios_witness :
    (scoreRow defaultWeights zeroDenRecord).win_percentage = 0 ∧
    (scoreRow defaultWeights zeroDenRecord).close_match_success = 0 ∧
    (scoreRow defaultWeights zeroDenRecord).strategy_success = 0 :=
  ⟨(C3_zero_denominator_ratios zeroDenRecord defaultWeights).1 rfl,
   (C3_zero_denominator_ratios zeroDenRecord defaultWeights).2.1 rfl,
   (C3_zero_denominator_ratios zeroDenRecord defaultWeights).2.2 rfl⟩

/-- A record whose improvement score overshoots the scale. -/
def overshootRecord : Record :=
  { zeroDenRecord with captain := "Over", player_improvement_score := 150 }

/-- A record whose improvement score is negative. -/
def undershootRecord : Record :=
  { zeroDenRecord with captain := "Under", player_improvement_score := -10 }

/-- Claim C6: `player_impact` is `player_improvement_score` clamped to
[0,100] (`Series.clip(0, 100)`); an input of 150 yields 100 and an input
of -10 yields 0. -/
theorem C6_player_impact_clamped :
    (∀ (r : Record) (w : Weights),
      (scoreRow w r).player_impact = spec_player_impact r) ∧
    (scoreRow defaultWeights overshootRecord).player_impact = 100 ∧
    (scoreRow defaultWeights undershootRecord).player_impact = 0 := by
  refine ⟨fun r w => ?_, ?_, ?_⟩
  · simp only [scoreRow, spec_player_impact, clipQ, min_max_distrib_left]
    norm_num
  · norm_num [scoreRow, overshootRecord, zeroDenRecord, clipQ]
  · norm_num [scoreRow, undershootRecord, zeroDenRecord, clipQ]

/-- Claim C10: on a successful run the output is exactly the input
records, scored and reordered: the output list is a permutation of the
row-wise scored input, scoring changes none of the raw fields, and
projecting the derived fields away gives back a permutation of the
input — nothing is dropped, duplicated or invented. -/
theorem C10_output_is_permutation_of_scored_input (df : List Record) (w : Weights) :
    (calculate_captain_score df w).Perm (df.map (scoreRow w)) ∧
    (∀ r : Record, (scoreRow w r).toRecord = r) ∧
    ((calculate_captain_score df w).map ScoredRow.toRecord).Perm df := by
  have hperm : (calculate_captain_score df w).Perm (df.map (scoreRow w)) :=
    ((List.reverse_perm _).trans (List.perm_insertionSort _ _)).trans (List.reverse_perm _)
  refine ⟨hperm, fun r => rfl, ?_⟩
  have h := hperm.map ScoredRow.toRecord
  rw [List.map_map, show ScoredRow.toRecord ∘ scoreRow w = id from funext fun _ => rfl,
    List.map_id] at h
  exact h

/-- Descending ordering of scored rows by `Captaincy_Score` (the order
the returned list is sorted in). -/
def scoreGE (a b : ScoredRow) : Prop := b.captaincy_score ≤ a.captaincy_score

instance : DecidableRel scoreGE := fun a b =>
  inferInstanceAs (Decidable (b.captaincy_score ≤ a.captaincy_score))

/-- Filtering for a class of mutually `r`-related elements commutes with
`orderedInsert` when the inserted element is in the class: the element
lands in front of the class. -/
theorem filter_orderedInsert_pos {α : Type} (r : α → α → Prop) [DecidableRel r]
    (p : α → Bool) (a : α) (hpa : p a = true) (hkey : ∀ b, p b = true → r a b) :
    ∀ l : List α, (List.orderedInsert r a l).filter p = a :: l.filter p := by
  intro l
  induction l with
  | nil => simp [List.orderedInsert, hpa]
  | cons b t ih =>
    by_cases hr : r a b
    · simp [List.orderedInsert, hr, List.filter_cons, hpa]
    · have hpb : p b = false := by
        cases hb : p b with
        | true => exact absurd (hkey b hb) hr
        | false => rfl
      simp [List.orderedInsert, hr, List.filter_cons, hpb, ih]

/-- Filtering for a class of mutually `r`-related elements commutes with
`orderedInsert` when the inserted element is outside the class. -/
theorem filter_orderedInsert_neg {α : Type} (r : α → α → Prop) [DecidableRel r]
    (p : α → Bool) (a : α) (hpa : p a = false) :
    ∀ l : List α, (List.orderedInsert r a l).filter p = l.filter p := by
  intro l
  induction l with
  | nil => simp [List.orderedInsert, hpa]
  | cons b t ih =>
    by_cases hr : r a b
    · simp [List.orderedInsert, hr, List.filter_cons, hpa]
    · simp [List.orderedInsert, hr, List.filter_cons, ih]

/-- Stability of `insertionSort`: the subsequence of elements of a class
of mutually `r`-related elements is untouched by the sort. -/
theorem filter_insertionSort {α : Type} (r : α → α → Prop) [DecidableRel r]
    (p : α → Bool) (hkey : ∀ a b, p a = true → p b = true → r a b) :
    ∀ l : List α, (List.insertionSort r l).filter p = l.filter p := by
  intro l
  induction l with
  | nil => rfl
  | cons a t ih =>
    cases hpa : p a with
    | true =>
      rw [List.insertionSort,
        filter_orderedInsert_pos r p a hpa (fun b hb => hkey a b hpa hb), ih,
        List.filter_cons_of_pos hpa]
    | false =>
      rw [List.insertionSort, filter_orderedInsert_neg r p a hpa, ih,
        List.filter_cons_of_neg (by simp [hpa])]

/-- Claim C2: the returned list is non-increasing in `captaincy_score`,
it is a permutation of the scored input rows, and rows with equal
`captaincy_score` appear in their original input order (the descending
sort is stable with input order as the tie-break): within each class of
equal scores the output subsequence equals the input subsequence — the
pre-reversal and post-reversal of pandas `nargsort` cancel on ties. -/
theorem C2_sorted_desc_stable_ties (df : List Record) (w : Weights) (s : ℚ) :
    List.Sorted scoreGE (calculate_captain_score df w) ∧
    (calculate_captain_score df w).Perm (df.map (scoreRow w)) ∧
    (calculate_captain_score df w).filter (fun r => decide (r.captaincy_score = s)) =
      (df.map (scoreRow w)).filter (fun r => decide (r.captaincy_score = s)) := by
  refine ⟨?_, ((List.reverse_perm _).trans (List.perm_insertionSort _ _)).trans
    (List.reverse_perm _), ?_⟩
  · rw [calculate_captain_score, List.Sorted, List.pairwise_reverse]
    exact List.sorted_insertionSort scoreLE _
  · rw [calculate_captain_score, List.filter_reverse,
      filter_insertionSort scoreLE _ ?_, List.filter_reverse, List.reverse_reverse]
    intro a b ha hb
    have ha' : a.captaincy_score = s := of_decide_eq_true ha
    have hb' : b.captaincy_score = s := of_decide_eq_true hb
    rw [scoreLE, ha', hb']

/-- Half-to-even rounding of a non-negative rational is non-negative. -/
theorem roundHalfToEven_nonneg {x : ℚ} (h : 0 ≤ x) : 0 ≤ roundHalfToEven x := by
  have hf : (0 : ℤ) ≤ ⌊x⌋ := Int.floor_nonneg.mpr h
  unfold roundHalfToEven
  split_ifs <;> omega

/-- Half-to-even rounding is monotone. -/
theorem roundHalfToEven_mono {x y : ℚ} (h : x ≤ y) : roundHalfToEven x ≤ roundHalfToEven y := by
  have hf : ⌊x⌋ ≤ ⌊y⌋ := Int.floor_le_floor h
  rcases eq_or_lt_of_le hf with heq | hlt
  · have hcast : ((⌊x⌋ : ℤ) : ℚ) = ((⌊y⌋ : ℤ) : ℚ) := by exact_mod_cast heq
    have hd : x - (⌊x⌋ : ℚ) ≤ y - (⌊y⌋ : ℚ) := by rw [← hcast]; linarith
    unfold roundHalfToEven
    rw [← heq] at hd ⊢
    split_ifs <;> first | omega | linarith
  · unfold roundHalfToEven
    split_ifs <;> omega

/-- Two-decimal rounding of a non-negative rational is non-negative. -/
theorem round2_nonneg {x : ℚ} (h : 0 ≤ x) : 0 ≤ round2 x := by
  have : (0 : ℤ) ≤ roundHalfToEven (x * 100) :=
    roundHalfToEven_nonneg (by positivity)
  rw [round2]
  have hc : (0 : ℚ) ≤ (roundHalfToEven (x * 100) : ℚ) := by exact_mod_cast this
  linarith

/-- Two-decimal rounding is monotone. -/
theorem round2_mono {x y : ℚ} (h : x ≤ y) : round2 x ≤ round2 y := by
  rw [round2, round2]
  have hm : roundHalfToEven (x * 100) ≤ roundHalfToEven (y * 100) :=
    roundHalfToEven_mono (by linarith)
  have hc : ((roundHalfToEven (x * 100) : ℤ) : ℚ) ≤ (roundHalfToEven (y * 100) : ℚ) := by
    exact_mod_cast hm
  linarith

/-- The guarded ratio `np.where(den > 0, num / den * 100, 0)` lies in
[0,100] when `0 ≤ num ≤ den`. -/
theorem guarded_ratio_bounds {num den : ℚ} (h0 : 0 ≤ num) (hle : num ≤ den) :
    0 ≤ (if 0 < den then num / den * 100 else 0) ∧
      (if 0 < den then num / den * 100 else 0) ≤ 100 := by
  split_ifs with h
  · have hdiv : num / den ≤ 1 := (div_le_one h).mpr hle
    have hnn : 0 ≤ num / den := div_nonneg h0 (le_of_lt h)
    constructor <;> nlinarith
  · norm_num

/-- The weight configuration of the C7 counterexample: a single tiny
positive weight. -/
def tinyWeights : Weights := ⟨6 / 100000, 0, 0, 0⟩

/-- The record of the C7 counterexample: one match played, one won. -/
def soloWinRecord : Record := ⟨"Solo", 1, 1, 0, 0, 0, 0, 0⟩

/-- Counterexample to claim C7 as stated: with non-negative weights
`{win := 0.00006, close := player := strategy := 0}` and a record whose
`win_percentage` is 100 (all §3 preconditions hold), the rounded
`captaincy_score` is 0.01, which exceeds the claimed upper bound
`100 × (Σ weights) = 0.006` — rounding can push the score above the
claimed interval. -/
theorem C7_counterexample :
    0 ≤ soloWinRecord.matches_won ∧
    soloWinRecord.matches_won ≤ soloWinRecord.matches_played ∧
    0 ≤ soloWinRecord.close_matches_won ∧
    soloWinRecord.close_matches_won ≤ soloWinRecord.close_matches_played ∧
    0 ≤ soloWinRecord.successful_strategies ∧
    soloWinRecord.successful_strategies ≤ soloWinRecord.total_strategies ∧
    0 ≤ tinyWeights.win ∧ 0 ≤ tinyWeights.close ∧
    0 ≤ tinyWeights.player ∧ 0 ≤ tinyWeights.strategy ∧
    100 * (tinyWeights.win + tinyWeights.close + tinyWeights.player + tinyWeights.strategy) <
      (scoreRow tinyWeights soloWinRecord).captaincy_score := by
  norm_num [scoreRow, soloWinRecord, tinyWeights, clipQ, round2, roundHalfToEven]

/-- Amended claim C7: under the §3 preconditions and non-negative
weights, every derived percentage field lies in [0,100], and the rounded
`captaincy_score` lies in [0, round(100 × (Σ weights), 2)] — the upper
bound is the two-decimal rounding of `100 × (Σ weights)`, which can be
0.005 above the raw product; the score itself is not clamped to
[0,100]. -/
theorem C7_amended (r : Record) (w : Weights)
    (h1 : 0 ≤ r.matches_won) (h2 : r.matches_won ≤ r.matches_played)
    (h3 : 0 ≤ r.close_matches_won) (h4 : r.close_matches_won ≤ r.close_matches_played)
    (h5 : 0 ≤ r.successful_strategies) (h6 : r.successful_strategies ≤ r.total_strategies)
    (hw1 : 0 ≤ w.win) (hw2 : 0 ≤ w.close) (hw3 : 0 ≤ w.player) (hw4 : 0 ≤ w.strategy) :
    (0 ≤ (scoreRow w r).win_percentage ∧ (scoreRow w r).win_percentage ≤ 100) ∧
    (0 ≤ (scoreRow w r).close_match_success ∧ (scoreRow w r).close_match_success ≤ 100) ∧
    (0 ≤ (scoreRow w r).strategy_success ∧ (scoreRow w r).strategy_success ≤ 100) ∧
    (0 ≤ (scoreRow w r).player_impact ∧ (scoreRow w r).player_impact ≤ 100) ∧
    0 ≤ (scoreRow w r).captaincy_score ∧
    (scoreRow w r).captaincy_score ≤
      round2 (100 * (w.win + w.close + w.player + w.strategy)) := by
  have hwin := guarded_ratio_bounds h1 h2
  have hclose := guarded_ratio_bounds h3 h4
  have hstrat := guarded_ratio_bounds h5 h6
  have himp : 0 ≤ clipQ r.player_improvement_score ∧
      clipQ r.player_improvement_score ≤ 100 := by
    constructor
    · exact le_min (by norm_num) (le_max_left 0 _)
    · exact min_le_left _ _
  simp only [scoreRow]
  refine ⟨hwin, hclose, hstrat, himp, ?_, ?_⟩
  · exact round2_nonneg (add_nonneg (add_nonneg (add_nonneg
      (mul_nonneg hwin.1 hw1) (mul_nonneg hclose.1 hw2))
      (mul_nonneg himp.1 hw3)) (mul_nonneg hstrat.1 hw4))
  · apply round2_mono
    have t1 := mul_le_mul_of_nonneg_right hwin.2 hw1
    have t2 := mul_le_mul_of_nonneg_right hclose.2 hw2
    have t3 := mul_le_mul_of_nonneg_right himp.2 hw3
    have t4 := mul_le_mul_of_nonneg_right hstrat.2 hw4
    linarith

/-- Witness for the amended C7 at the §8 example record and the default
weights. -/
theorem C7_amended_witness :
    (0 ≤ (scoreRow defaultWeights exampleRecord).win_percentage ∧
      (scoreRow defaultWeights exampleRecord).win_percentage ≤ 100) ∧
    (0 ≤ (scoreRow defaultWeights exampleRecord).close_match_success ∧
      (scoreRow defaultWeights exampleRecord).close_match_success ≤ 100) ∧
    (0 ≤ (scoreRow defaultWeights exampleRecord).strategy_success ∧
      (scoreRow defaultWeights exampleRecord).strategy_success ≤ 100) ∧
    (0 ≤ (scoreRow defaultWeights exampleRecord).player_impact ∧
      (scoreRow defaultWeights exampleRecord).player_impact ≤ 100) ∧
    0 ≤ (scoreRow defaultWeights exampleRecord).captaincy_score ∧
    (scoreRow defaultWeights exampleRecord).captaincy_score ≤
      round2 (100 * (defaultWeights.win + defaultWeights.close +
        defaultWeights.player + defaultWeights.strategy)) :=
  C7_amended exampleRecord defaultWeights
    (by norm_num [exampleRecord]) (by norm_num [exampleRecord])
    (by norm_num [exampleRecord]) (by norm_num [exampleRecord])
    (by norm_num [exampleRecord]) (by norm_num [exampleRecord])
    (by norm_num [defaultWeights]) (by norm_num [defaultWeights])
    (by norm_num [defaultWeights]) (by norm_num [defaultWeights])

/-- The running maximum `Series.max()` computes over a fold. -/
theorem foldl_max_spec (l : List ℚ) (a : ℚ) :
    (l.foldl max a = a ∨ l.foldl max a ∈ l) ∧
      a ≤ l.foldl max a ∧ ∀ x ∈ l, x ≤ l.foldl max a := by
  induction l generalizing a with
  | nil => exact ⟨Or.inl rfl, le_refl a, by simp⟩
  | cons b t ih =>
    obtain ⟨hmem, hinit, hub⟩ := ih (max a b)
    simp only [List.foldl_cons]
    refine ⟨?_, le_trans (le_max_left a b) hinit, ?_⟩
    · rcases hmem with h | h
      · rcases max_choice a b with hab | hab
        · exact Or.inl (h.trans hab)
        · exact Or.inr (by rw [h, hab]; exact List.mem_cons_self b t)
      · exact Or.inr (List.mem_cons_of_mem b h)
    · intro x hx
      rcases List.mem_cons.mp hx with hx | hx
      · exact le_trans (hx.le.trans (le_max_right a b)) hinit
      · exact hub x hx

/-- Embedding of `display_metrics`: on a non-empty scored frame it
computes `df['Captaincy_Score'].max()`,
`df['Captaincy_Score'].mean().round(2)`, `df.iloc[0]['Captain']` and
`len(df)`; on an empty frame `df.iloc[0]` raises `IndexError` (and the
max/mean are NaN), so the operation is undefined, modelled as `none`. -/
def display_metrics (df : List ScoredRow) : Option (ℚ × ℚ × String × ℕ) :=
  match df with
  | [] => none
  | r :: rs =>
    some (rs.foldl (fun (m : ℚ) (x : ScoredRow) => max m x.captaincy_score) r.captaincy_score,
      round2 (((r :: rs).map (fun x => x.captaincy_score)).sum / ((r :: rs).length : ℚ)),
      r.toRecord.captain,
      (r :: rs).length)

/-- Claim C9: on a non-empty scored list `display_metrics` returns the
maximum `captaincy_score`, the mean `captaincy_score` rounded to two
decimals, the name of the first (top-ranked) captain, and the record
count; on the empty list it is undefined (`df.iloc[0]` raises), so the
caller must guard. -/
theorem C9_summary_metrics :
    (∀ (df : List ScoredRow) (h : df ≠ []), ∃ M : ℚ,
      display_metrics df =
        some (M, round2 ((df.map (fun x => x.captaincy_score)).sum / (df.length : ℚ)),
          (df.head h).toRecord.captain, df.length) ∧
      M ∈ df.map (fun x => x.captaincy_score) ∧
      ∀ q ∈ df.map (fun x => x.captaincy_score), q ≤ M) ∧
    display_metrics [] = none := by
  refine ⟨fun df h => ?_, rfl⟩
  match df with
  | [] => exact absurd rfl h
  | r :: rs =>
    have hm := foldl_max_spec (rs.map (fun x => x.captaincy_score)) r.captaincy_score
    rw [List.foldl_map] at hm
    refine ⟨rs.foldl (fun (m : ℚ) (x : ScoredRow) => max m x.captaincy_score)
      r.captaincy_score, rfl, ?_, ?_⟩
    · rcases hm.1 with h1 | h1
      · rw [List.map_cons, h1]
        exact List.mem_cons_self _ _
      · exact List.mem_cons_of_mem _ h1
    · intro q hq
      rcases List.mem_cons.mp hq with hq | hq
      · exact hq ▸ hm.2.1
      · exact hm.2.2 q hq

/-- Witness for C9 on a concrete one-element scored list. -/
theorem C9_summary_metrics_witness :
    ∃ M : ℚ,
      display_metrics [scoreRow defaultWeights exampleRecord] =
        some (M,
          round2 ((([scoreRow defaultWeights exampleRecord]).map
            (fun x => x.captaincy_score)).sum /
            (([scoreRow defaultWeights exampleRecord]).length : ℚ)),
          (([scoreRow defaultWeights exampleRecord]).head
            (List.cons_ne_nil _ _)).toRecord.captain,
          ([scoreRow defaultWeights exampleRecord]).length) ∧
      M ∈ ([scoreRow defaultWeights exampleRecord]).map (fun x => x.captaincy_score) ∧
      ∀ q ∈ ([scoreRow defaultWeights exampleRecord]).map (fun x => x.captaincy_score),
        q ≤ M :=
  C9_summary_metrics.1 [scoreRow defaultWeights exampleRecord] (List.cons_ne_nil _ _)

/-- A pandas column: the values of one named Series. -/
abbrev Col := List ℚ

/-- A pandas DataFrame of numeric columns: named columns in insertion
order (the `Captain` label column is not read by the engine and is
carried like any other column a CSV may supply; label columns are
modelled separately where needed). -/
abbrev Frame := List (String × Col)

/-- The two error kinds of §7: `KeyError` on a missing column surfaces as
`Missing required column in data: <name>` (`MissingField`), and any other
exception as `Error processing data: <cause>` (`ProcessingError`). -/
inductive DataError where
  | MissingField : String → DataError
  | ProcessingError : String → DataError
deriving DecidableEq, Repr

/-- Column access `df[c]` without the raising behaviour: `some` values or
`none` when the column is absent. -/
def lookupCol : Frame → String → Option Col
  | [], _ => none
  | (k, u) :: t, c => if k = c then some u else lookupCol t c

/-- Column assignment `df[c] = v`: replaces the column in place if it
exists, otherwise appends it on the right — the in-place mutation of the
frame object. -/
def setCol : Frame → String → Col → Frame
  | [], c, v => [(c, v)]
  | (k, u) :: t, c, v => if k = c then (c, v) :: t else (k, u) :: setCol t c v

/-- Element-wise `np.where(den > 0, num / den * 100, 0)` over two
columns. -/
def whereRatio (den num : Col) : Col :=
  List.zipWith (fun d n => if 0 < d then n / d * 100 else 0) den num

/-- Element-wise weighted combination and `.round(2)` of line 42–47:
`(wp*w.win + cm*w.close + im*w.player + st*w.strategy).round(2)`. -/
def combineScore (w : Weights) (wp cm im st : Col) : Col :=
  (((wp.zipWith (fun a b => a * w.win + b * w.close) cm).zipWith
    (fun acc c => acc + c * w.player) im).zipWith
    (fun acc d => acc + d * w.strategy) st).map round2

/-- Sequential column accesses `df[c₁], df[c₂], …` in Python evaluation
order: the first absent column raises `KeyError(c)`. -/
def getCols : Frame → List String → Except DataError (List Col)
  | _, [] => .ok []
  | df, c :: cs =>
    match lookupCol df c with
    | none => .error (.MissingField c)
    | some v =>
      match getCols df cs with
      | .error e => .error e
      | .ok vs => .ok (v :: vs)

/-- One assignment statement `df[target] = f(df[src₁], …)`: reads the
source columns (first missing one raises), then assigns the target column
in place. -/
def colStep (df : Frame) (srcs : List String) (target : String)
    (f : List Col → Col) : Except DataError Frame :=
  match getCols df srcs with
  | .error e => .error e
  | .ok vs => .ok (setCol df target (f vs))

/-- The five assignment statements of the `try` block of
`calculate_captain_score` (lines 29–47), threading the mutated frame and
stopping at the first raised `KeyError`; the pair returned is the state
of the (mutated) argument frame together with the error, if any. -/
def scoreColumns (df : Frame) (w : Weights) : Frame × Option DataError :=
  match colStep df ["Matches_Played", "Matches_Won"] "Win_Percentage"
      (fun vs => whereRatio (vs.getD 0 []) (vs.getD 1 [])) with
  | .error e => (df, some e)
  | .ok d1 =>
    match colStep d1 ["Close_Matches_Played", "Close_Matches_Won"] "Close_Match_Success"
        (fun vs => whereRatio (vs.getD 0 []) (vs.getD 1 [])) with
    | .error e => (d1, some e)
    | .ok d2 =>
      match colStep d2 ["Total_Strategies", "Successful_Strategies"] "Strategy_Success"
          (fun vs => whereRatio (vs.getD 0 []) (vs.getD 1 [])) with
      | .error e => (d2, some e)
      | .ok d3 =>
        match colStep d3 ["Player_Improvement_Score"] "Player_Impact"
            (fun vs => (vs.getD 0 []).map clipQ) with
        | .error e => (d3, some e)
        | .ok d4 =>
          match colStep d4 ["Win_Percentage", "Close_Match_Success", "Player_Impact",
              "Strategy_Success"] "Captaincy_Score"
              (fun vs => combineScore w (vs.getD 0 []) (vs.getD 1 [])
                (vs.getD 2 []) (vs.getD 3 [])) with
          | .error e => (d4, some e)
          | .ok d5 => (d5, none)

instance (s : Col) : DecidableRel (fun i j : ℕ => s.getD i 0 ≤ s.getD j 0) :=
  fun _ _ => inferInstanceAs (Decidable (_ ≤ _))

/-- Stable ascending argsort of a column (numpy insertion sort on the
row indices for small batches). -/
def argsortAsc (s : Col) : List ℕ :=
  List.insertionSort (fun i j => s.getD i 0 ≤ s.getD j 0) (List.range s.length)

/-- Descending argsort as pandas `nargsort` performs it: the values and
the row indices are reversed first (`non_nans[::-1]`, `non_nan_idx[::-1]`,
so position `i` of the reversed column is original row `n - 1 - i`), a
stable ascending argsort of the reversed values is taken, the positions
are mapped back to original row indices, and the indexer is reversed at
the end; the two reversals cancel on equal keys, keeping tied rows in
original input order. -/
def argsortDesc (s : Col) : List ℕ :=
  ((argsortAsc s.reverse).map (fun i => s.length - 1 - i)).reverse

/-- Reindex every column of the frame by the given row indices
(`df.take(indexer)`), producing a new frame. -/
def takeRows (df : Frame) (idx : List ℕ) : Frame :=
  df.map (fun p => (p.1, idx.map (fun i => p.2.getD i 0)))

/-- `df.sort_values(by=key, ascending=False)`: the `nargsort` descending
argsort of the key column, rows taken in that order into a fresh frame;
raises `KeyError` if the key column is absent. -/
def sort_values_desc (df : Frame) (key : String) : Except DataError Frame :=
  match lookupCol df key with
  | some s => .ok (takeRows df (argsortDesc s))
  | none => .error (.MissingField key)

/-- Result of one call of `calculate_captain_score` on a frame object:
the state the argument frame was left in (the function mutates it in
place), the error reported via `st.error` if any, and the returned frame
(`pd.DataFrame()`, i.e. `[]`, on error). -/
structure FrameResult where
  state : Frame
  err : Option DataError
  ret : Frame
deriving DecidableEq, Repr

/-- Frame-level embedding of `calculate_captain_score` (lines 23–56):
the `try` block mutates the argument frame column by column and returns
the frame sorted descending by `Captaincy_Score`; a `KeyError` is
reported as a missing-column error and an empty frame is returned. -/
def calculate_captain_score_frame (df : Frame) (w : Weights) : FrameResult :=
  match scoreColumns df w with
  | (st, some e) => ⟨st, some e, []⟩
  | (st, none) =>
    match sort_values_desc st "Captaincy_Score" with
    | .ok out => ⟨st, none, out⟩
    | .error e => ⟨st, some e, []⟩

/-- The seven raw columns the engine reads (§3/§6). -/
def requiredCols : List String :=
  ["Matches_Played", "Matches_Won", "Close_Matches_Played", "Close_Matches_Won",
   "Total_Strategies", "Successful_Strategies", "Player_Improvement_Score"]

/-- The five derived columns the engine writes. -/
def derivedCols : List String :=
  ["Win_Percentage", "Close_Match_Success", "Strategy_Success", "Player_Impact",
   "Captaincy_Score"]

/-- Assigning a column makes it readable with the assigned value. -/
theorem lookupCol_setCol_self (df : Frame) (c : String) (v : Col) :
    lookupCol (setCol df c v) c = some v := by
  induction df with
  | nil => simp [setCol, lookupCol]
  | cons p t ih =>
    obtain ⟨k, u⟩ := p
    by_cases hk : k = c
    · simp [setCol, hk, lookupCol]
    · simp [setCol, hk, lookupCol, ih]

/-- Assigning a column leaves every other column unchanged. -/
theorem lookupCol_setCol_ne (df : Frame) {c c' : String} (h : c' ≠ c) (v : Col) :
    lookupCol (setCol df c v) c' = lookupCol df c' := by
  induction df with
  | nil => simp [setCol, lookupCol, Ne.symm h]
  | cons p t ih =>
    obtain ⟨k, u⟩ := p
    by_cases hk : k = c
    · subst hk
      simp [setCol, lookupCol, Ne.symm h]
    · by_cases hk' : k = c'
      · simp [setCol, hk, lookupCol, hk', h]
      · simp [setCol, hk, lookupCol, hk', ih]

/-- Re-assigning a column the value it already holds is a no-op on the
frame. -/
theorem setCol_eq_of_lookup (df : Frame) (c : String) (v : Col)
    (h : lookupCol df c = some v) : setCol df c v = df := by
  induction df with
  | nil => simp [lookupCol] at h
  | cons p t ih =>
    obtain ⟨k, u⟩ := p
    by_cases hk : k = c
    · subst hk
      simp [lookupCol] at h
      simp [setCol, h]
    · simp [lookupCol, hk] at h
      simp [setCol, hk, ih h]

/-- A failing sequence of column accesses fails on a listed column that
is absent, naming that column. -/
theorem getCols_error {df : Frame} {cs : List String} {e : DataError}
    (h : getCols df cs = .error e) :
    ∃ c ∈ cs, lookupCol df c = none ∧ e = DataError.MissingField c := by
  induction cs with
  | nil => simp [getCols] at h
  | cons c cs ih =>
    rw [getCols] at h
    cases hc : lookupCol df c with
    | none =>
      rw [hc] at h
      refine ⟨c, List.mem_cons_self c cs, hc, ?_⟩
      cases h
      rfl
    | some v =>
      rw [hc] at h
      cases hg : getCols df cs with
      | error e' =>
        rw [hg] at h
        cases h
        obtain ⟨c', hc', hl, he⟩ := ih hg
        exact ⟨c', List.mem_cons_of_mem c hc', hl, he⟩
      | ok vs => rw [hg] at h; cases h

/-- A successful sequence of column accesses found every listed
column. -/
theorem getCols_ok_mem {df : Frame} {cs : List String} {vs : List Col}
    (h : getCols df cs = .ok vs) : ∀ c ∈ cs, lookupCol df c ≠ none := by
  induction cs generalizing vs with
  | nil => simp
  | cons c cs ih =>
    rw [getCols] at h
    cases hc : lookupCol df c with
    | none => rw [hc] at h; cases h
    | some v =>
      rw [hc] at h
      cases hg : getCols df cs with
      | error e' => rw [hg] at h; cases h
      | ok vs' =>
        intro c' hc'
        rcases List.mem_cons.mp hc' with rfl | hmem
        · simp [hc]
        · exact ih hg c' hmem

/-- Column accesses depend only on the columns accessed. -/
theorem getCols_congr {df df2 : Frame} {cs : List String}
    (hs : ∀ c ∈ cs, lookupCol df2 c = lookupCol df c) :
    getCols df2 cs = getCols df cs := by
  induction cs with
  | nil => rfl
  | cons c cs ih =>
    rw [getCols, getCols, hs c (List.mem_cons_self c cs),
      ih (fun c' hc' => hs c' (List.mem_cons_of_mem c hc'))]

/-- A failing assignment statement failed on an absent source column,
naming it. -/
theorem colStep_error {df : Frame} {srcs : List String} {t : String}
    {f : List Col → Col} {e : DataError} (h : colStep df srcs t f = .error e) :
    ∃ c ∈ srcs, lookupCol df c = none ∧ e = DataError.MissingField c := by
  rw [colStep] at h
  cases hg : getCols df srcs with
  | error e' => rw [hg] at h; cases h; exact getCols_error hg
  | ok vs => rw [hg] at h; cases h

/-- A successful assignment statement read its sources and assigned the
target in place. -/
theorem colStep_ok {df d : Frame} {srcs : List String} {t : String}
    {f : List Col → Col} (h : colStep df srcs t f = .ok d) :
    ∃ vs, getCols df srcs = .ok vs ∧ d = setCol df t (f vs) := by
  rw [colStep] at h
  cases hg : getCols df srcs with
  | error e' => rw [hg] at h; cases h
  | ok vs => rw [hg] at h; cases h; exact ⟨vs, rfl, rfl⟩

/-- A successful assignment statement changes no column other than its
target. -/
theorem colStep_lookup_ne {df d : Frame} {srcs : List String} {t : String}
    {f : List Col → Col} (h : colStep df srcs t f = .ok d) {c : String}
    (hne : c ≠ t) : lookupCol d c = lookupCol df c := by
  obtain ⟨vs, _, hd⟩ := colStep_ok h
  rw [hd, lookupCol_setCol_ne df hne]

/-- Replaying a successful assignment statement on a frame that agrees
with the original on the sources and already holds the assigned target
value is a no-op. -/
theorem colStep_refix {df d : Frame} {srcs : List String} {t : String}
    {f : List Col → Col} (h : colStep df srcs t f = .ok d) (df2 : Frame)
    (hsrc : ∀ c ∈ srcs, lookupCol df2 c = lookupCol df c)
    (htar : lookupCol df2 t = lookupCol d t) :
    colStep df2 srcs t f = .ok df2 := by
  obtain ⟨vs, hg, hd⟩ := colStep_ok h
  have hg2 : getCols df2 srcs = .ok vs := (getCols_congr hsrc).trans hg
  have htv : lookupCol d t = some (f vs) := by
    rw [hd]; exact lookupCol_setCol_self df t (f vs)
  rw [colStep, hg2]
  exact congrArg Except.ok (setCol_eq_of_lookup df2 t (f vs) (htar.trans htv))

/-- The `try` block changes no column outside the five derived ones,
whether it completes or raises along the way. -/
theorem scoreColumns_lookup_preserved (df : Frame) (w : Weights) {c : String}
    (hc : c ∉ derivedCols) : lookupCol (scoreColumns df w).1 c = lookupCol df c := by
  simp only [derivedCols, List.mem_cons, List.not_mem_nil, or_false, not_or] at hc
  obtain ⟨n1, n2, n3, n4, n5⟩ := hc
  unfold scoreColumns
  split
  · rfl
  · rename_i d1 h1
    split
    · exact colStep_lookup_ne h1 n1
    · rename_i d2 h2
      split
      · rw [colStep_lookup_ne h2 n2, colStep_lookup_ne h1 n1]
      · rename_i d3 h3
        split
        · rw [colStep_lookup_ne h3 n3, colStep_lookup_ne h2 n2, colStep_lookup_ne h1 n1]
        · rename_i d4 h4
          split
          · rw [colStep_lookup_ne h4 n4, colStep_lookup_ne h3 n3, colStep_lookup_ne h2 n2,
              colStep_lookup_ne h1 n1]
          · rename_i d5 h5
            rw [colStep_lookup_ne h5 n5, colStep_lookup_ne h4 n4, colStep_lookup_ne h3 n3,
              colStep_lookup_ne h2 n2, colStep_lookup_ne h1 n1]

/-- The state the argument frame is left in is the state the `try` block
produced, in every branch. -/
theorem calc_frame_state_eq (df : Frame) (w : Weights) :
    (calculate_captain_score_frame df w).state = (scoreColumns df w).1 := by
  unfold calculate_captain_score_frame
  split
  · rename_i st e hsc
    rw [hsc]
  · rename_i st hsc
    split <;> rw [hsc]

/-- A one-row input frame holding exactly the seven raw columns. -/
def sampleFrame : Frame :=
  [("Matches_Played", [2]), ("Matches_Won", [1]),
   ("Close_Matches_Played", [2]), ("Close_Matches_Won", [1]),
   ("Player_Improvement_Score", [50]),
   ("Successful_Strategies", [1]), ("Total_Strategies", [2])]

/-- Counterexample to claim C5 as stated: `calculate_captain_score`
mutates the frame passed to it — after the call the argument frame holds
a `Captaincy_Score` column it did not hold before, so the input is not
left unchanged (the caller in `main` protects itself by passing
`df.copy()`). -/
theorem C5_counterexample :
    (calculate_captain_score_frame sampleFrame defaultWeights).state ≠ sampleFrame := by
  intro h
  have h1 : lookupCol ((calculate_captain_score_frame sampleFrame defaultWeights).state)
      "Captaincy_Score" = lookupCol sampleFrame "Captaincy_Score" := by rw [h]
  rw [show lookupCol sampleFrame "Captaincy_Score" = none from by
    simp [sampleFrame, lookupCol]] at h1
  rw [calc_frame_state_eq] at h1
  simp [scoreColumns, colStep, getCols, setCol, lookupCol, sampleFrame] at h1

/-- Amended claim C5: the engine is not pure — it mutates the frame
passed to it in place — but the mutation touches only the five derived
columns: every other column of the argument frame (in particular all raw
input columns) reads back unchanged after the call, the weights are
never written, and the returned ranking is a fresh frame; the caller in
`main` passes `df.copy()`, so the caller's own records are unchanged. -/
theorem C5_amended (df : Frame) (w : Weights) (c : String)
    (hc : c ∉ derivedCols) :
    lookupCol ((calculate_captain_score_frame df w).state) c = lookupCol df c := by
  rw [calc_frame_state_eq]
  exact scoreColumns_lookup_preserved df w hc

/-- Witness for the amended C5: after the call on the sample frame the
raw column `Matches_Played` reads back unchanged. -/
theorem C5_amended_witness :
    lookupCol ((calculate_captain_score_frame sampleFrame defaultWeights).state)
      "Matches_Played" = lookupCol sampleFrame "Matches_Played" :=
  C5_amended sampleFrame defaultWeights "Matches_Played" (by simp [derivedCols])

/-- A successful assignment statement found all its source columns. -/
theorem colStep_src_present {df d : Frame} {srcs : List String} {t : String}
    {f : List Col → Col} (h : colStep df srcs t f = .ok d) :
    ∀ c ∈ srcs, lookupCol df c ≠ none := by
  obtain ⟨vs, hg, _⟩ := colStep_ok h
  exact getCols_ok_mem hg

/-- When the `try` block raises, the reported error is a `KeyError`
naming one of the seven raw columns, and that column is indeed absent
from the input frame. -/
theorem scoreColumns_error (df : Frame) (w : Weights) (e : DataError)
    (h : (scoreColumns df w).2 = some e) :
    ∃ c, c ∈ requiredCols ∧ lookupCol df c = none ∧ e = DataError.MissingField c := by
  unfold scoreColumns at h
  split at h
  · rename_i e1 h1
    replace h : some e1 = some e := h
    injection h with h
    subst h
    obtain ⟨c, hc, hl, he⟩ := colStep_error h1
    rcases (by simpa using hc : c = "Matches_Played" ∨ c = "Matches_Won") with rfl | rfl <;>
      exact ⟨_, by simp [requiredCols], hl, he⟩
  · rename_i d1 h1
    split at h
    · rename_i e1 h2
      replace h : some e1 = some e := h
      injection h with h
      subst h
      obtain ⟨c, hc, hl, he⟩ := colStep_error h2
      rcases (by simpa using hc :
          c = "Close_Matches_Played" ∨ c = "Close_Matches_Won") with rfl | rfl <;>
        rw [colStep_lookup_ne h1 (by decide)] at hl <;>
        exact ⟨_, by simp [requiredCols], hl, he⟩
    · rename_i d2 h2
      split at h
      · rename_i e1 h3
        replace h : some e1 = some e := h
        injection h with h
        subst h
        obtain ⟨c, hc, hl, he⟩ := colStep_error h3
        rcases (by simpa using hc :
            c = "Total_Strategies" ∨ c = "Successful_Strategies") with rfl | rfl <;>
          rw [colStep_lookup_ne h2 (by decide), colStep_lookup_ne h1 (by decide)] at hl <;>
          exact ⟨_, by simp [requiredCols], hl, he⟩
      · rename_i d3 h3
        split at h
        · rename_i e1 h4
          replace h : some e1 = some e := h
          injection h with h
          subst h
          obtain ⟨c, hc, hl, he⟩ := colStep_error h4
          rcases (by simpa using hc : c = "Player_Improvement_Score") with rfl
          rw [colStep_lookup_ne h3 (by decide), colStep_lookup_ne h2 (by decide),
            colStep_lookup_ne h1 (by decide)] at hl
          exact ⟨_, by simp [requiredCols], hl, he⟩
        · rename_i d4 h4
          split at h
          · rename_i e1 h5
            obtain ⟨c, hc, hl, _⟩ := colStep_error h5
            obtain ⟨vs1, hg1, hd1⟩ := colStep_ok h1
            obtain ⟨vs2, hg2, hd2⟩ := colStep_ok h2
            obtain ⟨vs3, hg3, hd3⟩ := colStep_ok h3
            obtain ⟨vs4, hg4, hd4⟩ := colStep_ok h4
            rcases (by simpa using hc : c = "Win_Percentage" ∨ c = "Close_Match_Success" ∨
                c = "Player_Impact" ∨ c = "Strategy_Success") with rfl | rfl | rfl | rfl
            · rw [colStep_lookup_ne h4 (by decide), colStep_lookup_ne h3 (by decide),
                colStep_lookup_ne h2 (by decide), hd1, lookupCol_setCol_self] at hl
              cases hl
            · rw [colStep_lookup_ne h4 (by decide), colStep_lookup_ne h3 (by decide),
                hd2, lookupCol_setCol_self] at hl
              cases hl
            · rw [hd4, lookupCol_setCol_self] at hl
              cases hl
            · rw [colStep_lookup_ne h4 (by decide), hd3, lookupCol_setCol_self] at hl
              cases hl
          · replace h : (none : Option DataError) = some e := h
            cases h

/-- When the `try` block completes, all seven raw columns were present in
the input frame. -/
theorem scoreColumns_ok_required (df : Frame) (w : Weights)
    (h : (scoreColumns df w).2 = none) :
    ∀ c ∈ requiredCols, lookupCol df c ≠ none := by
  unfold scoreColumns at h
  split at h
  · cases h
  · rename_i d1 h1
    split at h
    · cases h
    · rename_i d2 h2
      split at h
      · cases h
      · rename_i d3 h3
        split at h
        · cases h
        · rename_i d4 h4
          split at h
          · cases h
          · rename_i d5 h5
            intro c hc
            rcases (by simpa [requiredCols] using hc : c = "Matches_Played" ∨
                c = "Matches_Won" ∨ c = "Close_Matches_Played" ∨
                c = "Close_Matches_Won" ∨ c = "Total_Strategies" ∨
                c = "Successful_Strategies" ∨ c = "Player_Improvement_Score")
              with rfl | rfl | rfl | rfl | rfl | rfl | rfl
            · exact colStep_src_present h1 _ (by simp)
            · exact colStep_src_present h1 _ (by simp)
            · rw [← colStep_lookup_ne h1 (by decide)]
              exact colStep_src_present h2 _ (by simp)
            · rw [← colStep_lookup_ne h1 (by decide)]
              exact colStep_src_present h2 _ (by simp)
            · rw [← colStep_lookup_ne h1 (by decide), ← colStep_lookup_ne h2 (by decide)]
              exact colStep_src_present h3 _ (by simp)
            · rw [← colStep_lookup_ne h1 (by decide), ← colStep_lookup_ne h2 (by decide)]
              exact colStep_src_present h3 _ (by simp)
            · rw [← colStep_lookup_ne h1 (by decide), ← colStep_lookup_ne h2 (by decide),
                ← colStep_lookup_ne h3 (by decide)]
              exact colStep_src_present h4 _ (by simp)

/-- Claim C4: if a required raw column is absent, the call reports a
`MissingField` error naming an absent required column and returns an
empty frame; and whenever any error is reported the returned frame is
empty — the engine never returns partially-scored data (the generic
`except Exception` branch likewise returns the empty frame, which is the
first conjunct's statement). -/
theorem C4_missing_column_empty_output (df : Frame) (w : Weights) :
    ((calculate_captain_score_frame df w).err ≠ none →
      (calculate_captain_score_frame df w).ret = []) ∧
    (∀ c ∈ requiredCols, lookupCol df c = none →
      ∃ cm, cm ∈ requiredCols ∧ lookupCol df cm = none ∧
        (calculate_captain_score_frame df w).err = some (DataError.MissingField cm)) := by
  constructor
  · unfold calculate_captain_score_frame
    split
    · intro _; rfl
    · split
      · intro habs; exact absurd rfl habs
      · intro _; rfl
  · intro c hcm hnone
    cases hsc2 : (scoreColumns df w).2 with
    | none => exact absurd hnone (scoreColumns_ok_required df w hsc2 c hcm)
    | some e =>
      obtain ⟨cm, hmem, hn, rfl⟩ := scoreColumns_error df w e hsc2
      refine ⟨cm, hmem, hn, ?_⟩
      have hpair : scoreColumns df w =
          ((scoreColumns df w).1, some (DataError.MissingField cm)) := by
        rw [← hsc2]
      unfold calculate_captain_score_frame
      rw [hpair]

/-- A frame missing the `Matches_Won` column. -/
def incompleteFrame : Frame := [("Matches_Played", [2])]

/-- Witness for C4 on a concrete frame missing `Matches_Won`: the call
reports a missing required column and returns the empty frame. -/
theorem C4_missing_column_empty_output_witness :
    (calculate_captain_score_frame incompleteFrame defaultWeights).ret = [] ∧
    ∃ cm, cm ∈ requiredCols ∧ lookupCol incompleteFrame cm = none ∧
      (calculate_captain_score_frame incompleteFrame defaultWeights).err =
        some (DataError.MissingField cm) := by
  have h2 := (C4_missing_column_empty_output incompleteFrame defaultWeights).2
    "Matches_Won" (by simp [requiredCols]) (by simp [incompleteFrame, lookupCol])
  refine ⟨?_, h2⟩
  obtain ⟨cm, _, _, he⟩ := h2
  exact (C4_missing_column_empty_output incompleteFrame defaultWeights).1
    (by rw [he]; simp)

/-- Re-running the `try` block on the frame it has already mutated
recomputes exactly the same derived columns (the raw columns it reads
are untouched), overwrites them with the same values, and raises the
same error, so state and error are reproduced exactly. -/
theorem scoreColumns_idem (df : Frame) (w : Weights) :
    scoreColumns (scoreColumns df w).1 w = scoreColumns df w := by
  rcases hx : scoreColumns df w with ⟨st, oe⟩
  show scoreColumns st w = (st, oe)
  unfold scoreColumns at hx
  split at hx
  · rename_i e1 h1
    injection hx with hst hoe
    subst hst; subst hoe
    simp only [scoreColumns, h1]
  · rename_i d1 h1
    split at hx
    · rename_i e1 h2
      injection hx with hst hoe
      subst hst; subst hoe
      have r1 := colStep_refix h1 d1 (by
        intro c hc
        rcases (by simpa using hc : c = "Matches_Played" ∨ c = "Matches_Won") with rfl | rfl <;>
          exact colStep_lookup_ne h1 (by decide)) rfl
      simp only [scoreColumns, r1, h2]
    · rename_i d2 h2
      split at hx
      · rename_i e1 h3
        injection hx with hst hoe
        subst hst; subst hoe
        have r1 := colStep_refix h1 d2 (by
          intro c hc
          rcases (by simpa using hc : c = "Matches_Played" ∨ c = "Matches_Won")
            with rfl | rfl <;>
            rw [colStep_lookup_ne h2 (by decide), colStep_lookup_ne h1 (by decide)])
          (colStep_lookup_ne h2 (by decide))
        have r2 := colStep_refix h2 d2 (by
          intro c hc
          rcases (by simpa using hc : c = "Close_Matches_Played" ∨ c = "Close_Matches_Won")
            with rfl | rfl <;>
            exact colStep_lookup_ne h2 (by decide)) rfl
        simp only [scoreColumns, r1, r2, h3]
      · rename_i d3 h3
        split at hx
        · rename_i e1 h4
          injection hx with hst hoe
          subst hst; subst hoe
          have r1 := colStep_refix h1 d3 (by
            intro c hc
            rcases (by simpa using hc : c = "Matches_Played" ∨ c = "Matches_Won")
              with rfl | rfl <;>
              rw [colStep_lookup_ne h3 (by decide), colStep_lookup_ne h2 (by decide),
                colStep_lookup_ne h1 (by decide)])
            (by rw [colStep_lookup_ne h3 (by decide), colStep_lookup_ne h2 (by decide)])
          have r2 := colStep_refix h2 d3 (by
            intro c hc
            rcases (by simpa using hc : c = "Close_Matches_Played" ∨ c = "Close_Matches_Won")
              with rfl | rfl <;>
              rw [colStep_lookup_ne h3 (by decide), colStep_lookup_ne h2 (by decide)])
            (colStep_lookup_ne h3 (by decide))
          have r3 := colStep_refix h3 d3 (by
            intro c hc
            rcases (by simpa using hc : c = "Total_Strategies" ∨ c = "Successful_Strategies")
              with rfl | rfl <;>
              exact colStep_lookup_ne h3 (by decide)) rfl
          simp only [scoreColumns, r1, r2, r3, h4]
        · rename_i d4 h4
          split at hx
          · rename_i e1 h5
            injection hx with hst hoe
            subst hst; subst hoe
            have r1 := colStep_refix h1 d4 (by
              intro c hc
              rcases (by simpa using hc : c = "Matches_Played" ∨ c = "Matches_Won")
                with rfl | rfl <;>
                rw [colStep_lookup_ne h4 (by decide), colStep_lookup_ne h3 (by decide),
                  colStep_lookup_ne h2 (by decide), colStep_lookup_ne h1 (by decide)])
              (by rw [colStep_lookup_ne h4 (by decide), colStep_lookup_ne h3 (by decide),
                colStep_lookup_ne h2 (by decide)])
            have r2 := colStep_refix h2 d4 (by
              intro c hc
              rcases (by simpa using hc :
                  c = "Close_Matches_Played" ∨ c = "Close_Matches_Won") with rfl | rfl <;>
                rw [colStep_lookup_ne h4 (by decide), colStep_lookup_ne h3 (by decide),
                  colStep_lookup_ne h2 (by decide)])
              (by rw [colStep_lookup_ne h4 (by decide), colStep_lookup_ne h3 (by decide)])
            have r3 := colStep_refix h3 d4 (by
              intro c hc
              rcases (by simpa using hc :
                  c = "Total_Strategies" ∨ c = "Successful_Strategies") with rfl | rfl <;>
                rw [colStep_lookup_ne h4 (by decide), colStep_lookup_ne h3 (by decide)])
              (colStep_lookup_ne h4 (by decide))
            have r4 := colStep_refix h4 d4 (by
              intro c hc
              rcases (by simpa using hc : c = "Player_Improvement_Score") with rfl
              exact colStep_lookup_ne h4 (by decide)) rfl
            simp only [scoreColumns, r1, r2, r3, r4, h5]
          · rename_i d5 h5
            injection hx with hst hoe
            subst hst; subst hoe
            have r1 := colStep_refix h1 d5 (by
              intro c hc
              rcases (by simpa using hc : c = "Matches_Played" ∨ c = "Matches_Won")
                with rfl | rfl <;>
                rw [colStep_lookup_ne h5 (by decide), colStep_lookup_ne h4 (by decide),
                  colStep_lookup_ne h3 (by decide), colStep_lookup_ne h2 (by decide),
                  colStep_lookup_ne h1 (by decide)])
              (by rw [colStep_lookup_ne h5 (by decide), colStep_lookup_ne h4 (by decide),
                colStep_lookup_ne h3 (by decide), colStep_lookup_ne h2 (by decide)])
            have r2 := colStep_refix h2 d5 (by
              intro c hc
              rcases (by simpa using hc :
                  c = "Close_Matches_Played" ∨ c = "Close_Matches_Won") with rfl | rfl <;>
                rw [colStep_lookup_ne h5 (by decide), colStep_lookup_ne h4 (by decide),
                  colStep_lookup_ne h3 (by decide), colStep_lookup_ne h2 (by decide)])
              (by rw [colStep_lookup_ne h5 (by decide), colStep_lookup_ne h4 (by decide),
                colStep_lookup_ne h3 (by decide)])
            have r3 := colStep_refix h3 d5 (by
              intro c hc
              rcases (by simpa using hc :
                  c = "Total_Strategies" ∨ c = "Successful_Strategies") with rfl | rfl <;>
                rw [colStep_lookup_ne h5 (by decide), colStep_lookup_ne h4 (by decide),
                  colStep_lookup_ne h3 (by decide)])
              (by rw [colStep_lookup_ne h5 (by decide), colStep_lookup_ne h4 (by decide)])
            have r4 := colStep_refix h4 d5 (by
              intro c hc
              rcases (by simpa using hc : c = "Player_Improvement_Score") with rfl
              rw [colStep_lookup_ne h5 (by decide), colStep_lookup_ne h4 (by decide)])
              (colStep_lookup_ne h5 (by decide))
            have r5 := colStep_refix h5 d5 (by
              intro c hc
              rcases (by simpa using hc : c = "Win_Percentage" ∨ c = "Close_Match_Success" ∨
                  c = "Player_Impact" ∨ c = "Strategy_Success") with rfl | rfl | rfl | rfl <;>
                exact colStep_lookup_ne h5 (by decide)) rfl
            simp only [scoreColumns, r1, r2, r3, r4, r5]

/-- Claim C8: scoring is deterministic and idempotent across calls: in
the model a call is a pure function of the frame value and the weights,
so two calls on the same immutable inputs are definitionally identical;
proved here in the strong operational form — re-running the engine on
the very frame object the first call mutated in place reproduces the
first call's final state, reported error and returned ranking exactly. -/
theorem C8_second_call_identical (df : Frame) (w : Weights) :
    calculate_captain_score_frame ((calculate_captain_score_frame df w).state) w =
      calculate_captain_score_frame df w := by
  rw [calc_frame_state_eq]
  unfold calculate_captain_score_frame
  rw [scoreColumns_idem]
